import Mathlib

/-!
# Nutify — verification of the sampling/aggregation pipeline and event pipeline

Shallow embedding of the core of the Nutify UPS monitor:
* the event store and bracketing logic of `core/events/ups_notifier.py`
  (`close_previous_events`, `store_event_in_database`, `process_ups_event`,
  the battery-duration derivation inside `send_email_notification`);
* the sample buffer / aggregator of `core/db/ups/cache.py`
  (`UPSDataCache.add`, `is_save_time`, `calculate_averages`,
  `calculate_and_save_averages`, `broadcast_cache_update`, and the
  buffer-cap adjustment in `save_ups_data`);
* the reader helpers of `core/db/ups/utils.py` and `core/db/ups/data.py`
  (`calculate_realpower`, `get_ups_data`).

Timestamps are modelled as integers (seconds on an absolute clock);
timezone conversions (`astimezone`) do not change the instant and are
therefore identity in the model.  Python floats are modelled as rationals.
-/

namespace Nutify

/-- A value held in a UPS data dictionary: a Python float/int, a string,
or a datetime (the buffer's `timestamp` column). -/
inductive NutValue where
  | num (q : ℚ)
  | str (s : String)
  | time (t : ℤ)
deriving Repr, DecidableEq

/-- A Python dict of UPS fields, as an insertion-ordered association list
with unique keys (the dict invariant is maintained by `dictInsert`). -/
abbrev Row := List (String × NutValue)

/-- `d.get(k)` / `k in d` lookup on a `Row`. -/
def lookupVal (r : Row) (c : String) : Option NutValue :=
  (r.find? (fun p => p.1 == c)).map Prod.snd

/-- `d[k] = v` on a Python dict: overwrite in place if the key exists,
append otherwise. -/
def dictInsert (r : Row) (k : String) (v : NutValue) : Row :=
  if (r.find? (fun p => p.1 == k)).isSome then
    r.map (fun p => if p.1 == k then (k, v) else p)
  else r ++ [(k, v)]

/-- `{**l, **r}`: right-biased Python dict merge. -/
def dictMerge (l r : Row) : Row :=
  r.foldl (fun acc p => dictInsert acc p.1 p.2) l

/-- Value of a digit character. -/
def charDigit (c : Char) : ℕ := c.toNat - 48

/-- Numeric value of a digit string (helper for `parsePyFloat`). -/
def digitsVal (cs : List Char) : ℕ :=
  cs.foldl (fun acc c => acc * 10 + charDigit c) 0

/-- Split a character list on the dots it contains (the groups of
`s.split('.')`). -/
def splitDot : List Char → List (List Char)
  | [] => [[]]
  | c :: cs =>
    match splitDot cs with
    | [] => [[]]
    | g :: gs => if c = '.' then [] :: g :: gs else (c :: g) :: gs

/-- `float(s)` for the decimal literals produced by a NUT reader:
optional sign, digits, optional fractional digits.  Returns `none` when
Python's `float()` would raise `ValueError`. -/
def parsePyFloat (s : String) : Option ℚ :=
  let cs := s.toList
  let signed : ℚ × List Char :=
    match cs with
    | '-' :: rest => (-1, rest)
    | '+' :: rest => (1, rest)
    | _ => (1, cs)
  let sign := signed.1
  let body := signed.2
  match splitDot body with
  | [ip] =>
    if ip.length > 0 ∧ ip.all Char.isDigit then
      some (sign * (digitsVal ip : ℚ))
    else none
  | [ip, fp] =>
    if (ip.length > 0 ∨ fp.length > 0) ∧ ip.all Char.isDigit ∧
        fp.all Char.isDigit then
      some (sign * ((digitsVal ip : ℚ) +
        (digitsVal fp : ℚ) / (10 : ℚ) ^ fp.length))
    else none
  | _ => none

/-- `key.replace('.', '_')`: the pattern is a single character, so this is
a per-character substitution. -/
def dotToUnderscore (s : String) : String :=
  String.mk (s.toList.map (fun c => if c = '.' then '_' else c))

/-- Python's `str.strip()`: drop leading and trailing whitespace. -/
def pyStrip (s : String) : String :=
  String.mk
    (((s.toList.dropWhile Char.isWhitespace).reverse.dropWhile
      Char.isWhitespace).reverse)

/-- Round to the nearest integer, ties to even — the rounding used by
`numpy`/`pandas` `.round()` and Python's builtin `round`. -/
def roundHalfEven (x : ℚ) : ℤ :=
  let f := ⌊x⌋
  let frac := x - f
  if frac < 1/2 then f
  else if 1/2 < frac then f + 1
  else if Even f then f else f + 1

/-- `round(x, 2)` / `.round(2)`: round to 2 decimal places, ties to even. -/
def round2 (q : ℚ) : ℚ := (roundHalfEven (q * 100) : ℚ) / 100

/-- `str(x)` for a nonnegative float that is a multiple of 1/100 (the
result of `round(x, 2)`): Python prints the shortest decimal, i.e. one
fractional digit when the hundredths digit is 0, else two. -/
def fmtRound2 (q : ℚ) : String :=
  let c := ⌊q * 100⌋.toNat
  let ip := c / 100
  let f := c % 100
  if f % 10 == 0 then s!"{ip}.{f / 10}"
  else s!"{ip}.{f / 10}{f % 10}"

/-! ## Event store and bracketing (`core/events/ups_notifier.py`) -/

/-- One row of the `ups_events` table, as created and updated by
`ups_notifier.py` (`UPSEventModel`). -/
structure UPSEvent where
  timestamp_tz : ℤ
  timestamp_tz_begin : ℤ
  timestamp_tz_end : Option ℤ
  ups_name : String
  event_type : String
  source_ip : Option String
  acknowledged : Bool
deriving Repr, DecidableEq

/-- The `ups_events` table, in insertion order. -/
abbrev EventDB := List UPSEvent

/-- The filter of `close_previous_events`: events of this UPS whose end
timestamp is NULL. -/
def isOpenFor (name : String) (e : UPSEvent) : Bool :=
  e.ups_name == name && e.timestamp_tz_end == none

/-- `close_previous_events(ups_name, current_time)`: set the end timestamp
of every open event of this UPS to `current_time`. -/
def close_previous_events (name : String) (now : ℤ) (db : EventDB) : EventDB :=
  db.map (fun e =>
    if isOpenFor name e then { e with timestamp_tz_end := some now } else e)

/-- The row inserted by `store_event_in_database`: begin = `now`, end NULL,
acknowledged false. -/
def newEvent (name etype : String) (ip : Option String) (now : ℤ) : UPSEvent :=
  { timestamp_tz := now
    timestamp_tz_begin := now
    timestamp_tz_end := none
    ups_name := name
    event_type := etype
    source_ip := ip
    acknowledged := false }

/-- `store_event_in_database(ups_name, event_type)`: first close every open
event of this UPS at `now`, then insert the new open event row. -/
def store_event_in_database (name etype : String) (ip : Option String)
    (now : ℤ) (db : EventDB) : EventDB :=
  close_previous_events name now db ++ [newEvent name etype ip now]

/-- The open events (NULL end timestamp) of a UPS. -/
def openEvents (db : EventDB) (name : String) : EventDB :=
  db.filter (isOpenFor name)

/-! ### Battery-duration derivation (`send_email_notification`, ONLINE) -/

/-- `query.filter_by(...).order_by(timestamp_tz.desc()).first()` on a list
of matches: the element with the greatest `timestamp_tz`. -/
def maxByTimestamp : EventDB → Option UPSEvent
  | [] => none
  | e :: es =>
    some (es.foldl
      (fun acc x => if acc.timestamp_tz < x.timestamp_tz then x else acc) e)

/-- Insert into a list kept sorted by descending `timestamp_tz`. -/
def insertDesc (e : UPSEvent) : EventDB → EventDB
  | [] => [e]
  | x :: xs =>
    if x.timestamp_tz ≤ e.timestamp_tz then e :: x :: xs
    else x :: insertDesc e xs

/-- `order_by(timestamp_tz.desc())` on a list of matches. -/
def sortDescByTimestamp (db : EventDB) : EventDB :=
  db.foldr insertDesc []

/-- The open-ONBATT query of the ONLINE branch of
`send_email_notification`. -/
def openOnbattQuery (db : EventDB) (name : String) : Option UPSEvent :=
  maxByTimestamp (db.filter (fun e =>
    e.ups_name == name && e.event_type == "ONBATT" &&
      e.timestamp_tz_end == none))

/-- The closed-ONBATT query of the ONLINE branch: events of this UPS of
type ONBATT with a non-NULL end, most recent first, limit 5. -/
def closedOnbattTop5 (db : EventDB) (name : String) : EventDB :=
  (sortDescByTimestamp (db.filter (fun e =>
    e.ups_name == name && e.event_type == "ONBATT" &&
      !(e.timestamp_tz_end == none)))).take 5

/-- `f"\x7bduration_minutes\x7d min"` where `duration_minutes` is
`int(duration_seconds / 60)` (truncation toward zero). -/
def minutesString (durationSeconds : ℤ) : String :=
  toString (Int.tdiv durationSeconds 60) ++ " min"

/-- The loop over the closed ONBATT events: pick the first (most recent)
whose end lies within the last hour and report its end − begin, in
minutes. -/
def findRelevantClosed (now : ℤ) : EventDB → Option String
  | [] => none
  | e :: es =>
    match e.timestamp_tz_end with
    | some tend =>
      if now - tend < 3600 then some (minutesString (tend - e.timestamp_tz))
      else findRelevantClosed now es
    | none => findRelevantClosed now es

/-- The battery-duration derivation for an ONLINE notification
(`send_email_notification`, `event_type == 'ONLINE'` branch): prefer an
open ONBATT event (duration `now` − its begin), else the most recent
closed ONBATT whose end is less than one hour old (duration end − begin);
when that leaves the duration at the default `"0 min"`, fall back to the
device uptime if it is under an hour. -/
def battery_duration_for_online (db : EventDB) (name : String) (now : ℤ)
    (deviceUptime : Option ℕ) : String :=
  match openOnbattQuery db name with
  | some e => minutesString (now - e.timestamp_tz)
  | none =>
    let fromClosed :=
      (findRelevantClosed now (closedOnbattTop5 db name)).getD "0 min"
    if fromClosed == "0 min" then
      match deviceUptime with
      | some u => if u / 60 < 60 then toString (u / 60) ++ " min" else "0 min"
      | none => "0 min"
    else fromClosed

/-! ## Notification dispatch (`process_ups_event`) -/

/-- One attempted job of a dispatch, in execution order. -/
inductive DispatchAction where
  | record
  | email (configId : ℕ)
  | ntfy (configId : ℕ)
  | webhook
deriving Repr, DecidableEq

/-- The environment a `process_ups_event` call runs against: the outcome
of the event-store write, the enabled-channel query results, and which
sends raise or fail (every such failure is caught: inside
`send_email_notification` / `send_ntfy_notification`, or by the
`try/except` around `send_webhook_notification`). -/
structure DispatchWorld where
  storeOk : Bool
  emailNotifications : List ℕ
  emailConfigOk : Bool
  hasNtfy : Bool
  ntfyConfigs : List ℕ
  hasWebhook : Bool
  emailSendFails : ℕ → Bool
  ntfySendFails : ℕ → Bool
  webhookRaises : Bool
  webhookResultOk : Bool

/-- Outcome of `process_ups_event`: its return value, whether the event
row was committed, and the per-job trace (action, job succeeded). -/
structure DispatchResult where
  success : Bool
  eventPersisted : Bool
  trace : List (DispatchAction × Bool)
deriving Repr, DecidableEq

/-- `get_enabled_ntfy_configs`: empty when the ntfy module is absent. -/
def get_enabled_ntfy_configs (w : DispatchWorld) : List ℕ :=
  if w.hasNtfy then w.ntfyConfigs else []

/-- `process_ups_event(ups_name, event_type)`: store the event first and
return `False` if that fails; otherwise attempt email (when enabled and
the mail configuration verifies), ntfy, and webhook jobs, each job
catching its own errors, and return `True`. -/
def process_ups_event (w : DispatchWorld) : DispatchResult :=
  if !w.storeOk then
    { success := false, eventPersisted := false, trace := [(.record, false)] }
  else
    let notifications := w.emailNotifications
    let ntfyConfigs := get_enabled_ntfy_configs w
    if notifications.isEmpty && ntfyConfigs.isEmpty && !w.hasWebhook then
      { success := true, eventPersisted := true, trace := [(.record, true)] }
    else
      let emailJobs :=
        if !notifications.isEmpty && w.emailConfigOk then
          notifications.map (fun c => (DispatchAction.email c, !w.emailSendFails c))
        else []
      let ntfyJobs :=
        if !ntfyConfigs.isEmpty && w.hasNtfy then
          ntfyConfigs.map (fun c => (DispatchAction.ntfy c, !w.ntfySendFails c))
        else []
      let webhookJobs :=
        if w.hasWebhook then
          [(DispatchAction.webhook, !w.webhookRaises && w.webhookResultOk)]
        else []
      { success := true
        eventPersisted := true
        trace := (.record, true) :: emailJobs ++ ntfyJobs ++ webhookJobs }

/-! ## Sample buffer / aggregator (`core/db/ups/cache.py`) -/

/-- `CACHE_SECONDS` (default settings value, `core/settings.py`). -/
def CACHE_SECONDS : ℕ := 60

/-- The buffer-size adjustment of `save_ups_data`: when the polling
interval exceeds one second the cache size becomes
`max(5, int(CACHE_SECONDS / polling_interval))`; otherwise it is left
unchanged. -/
def adjust_cache_size (size : ℕ) (polling_interval : ℕ) : ℕ :=
  if 1 < polling_interval then max 5 (CACHE_SECONDS / polling_interval)
  else size

/-- `get_next_minute`: floor the wall-clock time to its minute and add one
minute. -/
def next_minute (t : ℤ) : ℤ := t - t % 60 + 60

/-- `get_next_hour`: floor the wall-clock time to its hour and add one
hour. -/
def next_hour_of (t : ℤ) : ℤ := t - t % 3600 + 3600

/-- Midnight of the local day containing `t`. -/
def midnightOf (t : ℤ) : ℤ := t - t % 86400

/-- `local_time.hour == 0 and local_time.minute == 0`. -/
def isMidnightMinute (t : ℤ) : Bool := t % 86400 < 60

/-- `local_time.date()`, as a day index. -/
def dateOf (t : ℤ) : ℤ := (t - t % 86400) / 86400

/-- The mutable state of a `UPSDataCache` instance.  The Pandas
`DataFrame` `self.df` is always rebuilt from `self.data` by `add`, so it
is represented by `data` itself (see `dfRows`). -/
structure CacheState where
  size : ℕ
  data : List (ℤ × Row)
  next_save_time : Option ℤ
  next_hour : Option ℤ
  hourly_data : List (ℤ × Option NutValue)
  last_daily_aggregation : Option ℤ
  last_broadcast : Option Row
deriving Repr, DecidableEq

/-- `UPSDataCache.__init__(size)`. -/
def mkCache (size : ℕ) : CacheState :=
  { size := size
    data := []
    next_save_time := none
    next_hour := none
    hourly_data := []
    last_daily_aggregation := none
    last_broadcast := none }

/-- The rows of `self.df`: one `{'timestamp': ts, **d}` dict per buffered
sample. -/
def dfRows (st : CacheState) : List Row :=
  st.data.map (fun p => dictMerge [("timestamp", NutValue.time p.1)] p.2)

/-- `UPSDataCache.is_save_time`: false while `next_save_time` is unset;
otherwise true when the current time has reached `next_save_time` or the
buffer has reached the configured size. -/
def is_save_time (st : CacheState) (current : ℤ) : Bool :=
  match st.next_save_time with
  | none => false
  | some t => decide (t ≤ current) || decide (st.size ≤ st.data.length)

/-! ### Averaging (`calculate_averages`) -/

/-- The DataFrame's columns, in first-seen order. -/
def buildColumns (rows : List Row) : List String :=
  rows.foldl (fun acc r =>
    r.foldl (fun a p => if p.1 ∈ a then a else a ++ [p.1]) acc) []

/-- Whether a column has a numeric dtype: every present value is a number
(missing entries are NaN, which keeps a float dtype; a datetime or string
entry makes the column non-numeric). -/
def colIsNumeric (rows : List Row) (c : String) : Bool :=
  rows.all (fun r =>
    match lookupVal r c with
    | some (.num _) => true
    | none => true
    | some _ => false)

/-- The present numeric values of a column (`mean()` skips NaN). -/
def numValues (rows : List Row) (c : String) : List ℚ :=
  rows.filterMap (fun r =>
    match lookupVal r c with
    | some (.num q) => some q
    | _ => none)

/-- Arithmetic mean of a list of rationals. -/
def ratMean (l : List ℚ) : ℚ := l.sum / l.length

/-- `UPSDataCache.calculate_averages`: `None` on an empty buffer; else the
merge of the per-column means of the numeric columns (rounded to 2
decimals) with the last row's values of the non-numeric columns, the
`timestamp` column excluded.  An inner `none` value is a NaN (column
missing from the last row). -/
def calculate_averages (rows : List Row) :
    Option (List (String × Option NutValue)) :=
  if rows.isEmpty then none
  else
    let cols := buildColumns rows
    let numericCols := cols.filter (colIsNumeric rows)
    let nonNumericCols :=
      (cols.filter (fun c => !colIsNumeric rows c)).filter
        (fun c => c ≠ "timestamp")
    let averages := numericCols.map (fun c =>
      (c, some (NutValue.num (round2 (ratMean (numValues rows c))))))
    let lastValues := nonNumericCols.map (fun c =>
      (c, lookupVal ((rows.getLast?).getD []) c))
    some (averages ++ lastValues)

/-! ### Broadcast (`broadcast_cache_update`) -/

/-- The watch-list of `broadcast_cache_update`. -/
def importantMetrics : List String :=
  ["ups_load", "battery_charge", "ups_realpower", "input_voltage"]

/-- `float(value or 0)`: numbers pass through (`0` is falsy but maps to
`0` anyway), the empty string is falsy and maps to `0`, other strings go
through `float()`, and a datetime raises. -/
def pyFloatOrZero : NutValue → Option ℚ
  | .num q => some q
  | .str s => if s == "" then some 0 else parsePyFloat s
  | .time _ => none

/-- A payload's value for a metric is numeric when present (the normal
shape of reader output: the significance comparison then never hits the
float-conversion `except` branch). -/
def isNumericOrAbsent (r : Row) (m : String) : Bool :=
  match lookupVal r m with
  | none => true
  | some (NutValue.num _) => true
  | some _ => false

/-- `broadcast_data.get('ups_status') != self.last_broadcast.get('ups_status')`. -/
def statusChanged (bd last : Row) : Bool :=
  decide (lookupVal bd "ups_status" ≠ lookupVal last "ups_status")

/-- The significance loop of `broadcast_cache_update`: some watch-list
metric is present in both payloads and either fails float conversion or
moved by at least one unit. -/
def significantChange (bd last : Row) : Bool :=
  importantMetrics.any (fun m =>
    ((lookupVal bd m).isSome && (lookupVal last m).isSome) &&
      (match (lookupVal bd m).bind pyFloatOrZero,
             (lookupVal last m).bind pyFloatOrZero with
       | some c, some l => decide ((1 : ℚ) ≤ |c - l|)
       | _, _ => true))

/-- `UPSDataCache.broadcast_cache_update(data)`: returns the emitted
payload (if any) and the new state.  Empty data is not broadcast; after
the first broadcast a payload is only emitted when the status changed or
some watch-list metric changed significantly. -/
def broadcast_cache_update (st : CacheState) (nowIso : String) (d : Row) :
    Option Row × CacheState :=
  if d.isEmpty then (none, st)
  else
    let bd := dictMerge [("timestamp", NutValue.str nowIso)] d
    match st.last_broadcast with
    | some last =>
      if !statusChanged bd last && !significantChange bd last then (none, st)
      else (some bd, { st with last_broadcast := some bd })
    | none => (some bd, { st with last_broadcast := some bd })

/-- The key formatting of `UPSDataCache.add`: dots become underscores. -/
def formatKeysRow (d : Row) : Row :=
  d.foldl (fun acc p => dictInsert acc (dotToUnderscore p.1) p.2) []

/-- `UPSDataCache.add(timestamp, data)`: set `next_save_time` on the first
sample, append the formatted sample to the buffer, rebuild the DataFrame,
and broadcast the update. -/
def cache_add (st : CacheState) (ts : ℤ) (nowIso : String) (d : Row) :
    CacheState :=
  let st0 :=
    if st.next_save_time.isNone then
      { st with next_save_time := some (next_minute ts) }
    else st
  let fd := formatKeysRow d
  let st1 := { st0 with data := st0.data ++ [(ts, fd)] }
  (broadcast_cache_update st1 nowIso fd).2

/-! ### Minute flush (`calculate_and_save_averages`) -/

/-- A record committed to the aggregate store. -/
inductive DBWrite where
  | minuteRecord (ts : ℤ) (fields : List (String × Option NutValue))
      (hrs : Option ℚ)
  | dailyRecord (ts : ℤ) (days : ℚ)
deriving Repr, DecidableEq

/-- Environment of one `calculate_and_save_averages` call: whether the
minute-record commit succeeds, the columns of the `UPSDynamicData` model
(the `hasattr` filter), the `ups_realpower` column of the rows returned by
the hourly query, and the scalar returned by the daily AVG query together
with the outcome of the daily commit. -/
structure FlushEnv where
  persistOk : Bool
  schema : List String
  hourQueryPowers : List (Option ℚ)
  dailyAvgQuery : Option ℚ
  dailyPersistOk : Bool

/-- Result of one `calculate_and_save_averages` call. -/
structure FlushResult where
  saved : Bool
  state : CacheState
  writes : List DBWrite
deriving Repr, DecidableEq

/-- `UPSDataCache.should_aggregate_daily`: true exactly once per calendar
day, during the midnight minute; records the date it fired. -/
def should_aggregate_daily (st : CacheState) (current : ℤ) :
    Bool × CacheState :=
  if isMidnightMinute current &&
      !(st.last_daily_aggregation == some (dateOf current)) then
    (true, { st with last_daily_aggregation := some (dateOf current) })
  else (false, st)

/-- `UPSDataCache.aggregate_daily_data`: average the previous day's
hourly values (the AVG query scalar); a `None` or `0` scalar is falsy and
skipped, and a failing commit is rolled back, writing nothing. -/
def aggregate_daily_data (env : FlushEnv) (current : ℤ) : List DBWrite :=
  match env.dailyAvgQuery with
  | some q =>
    if q ≠ 0 ∧ env.dailyPersistOk then
      [DBWrite.dailyRecord (midnightOf current - 86400) (round2 q)]
    else []
  | none => []

/-- The hourly-aggregation section of `calculate_and_save_averages`: when
the averages contain `ups_realpower`, append it to the hourly side-buffer;
when the hour boundary has passed, compute `ups_realpower_hrs` from the
persisted per-minute values, reset the side-buffer and advance
`next_hour`.  Returns the updated state and the `ups_realpower_hrs` value
for this minute's record. -/
def hourlySection (env : FlushEnv) (st : CacheState) (current nst : ℤ)
    (averages : List (String × Option NutValue)) :
    CacheState × Option ℚ :=
  match averages.find? (fun p => p.1 == "ups_realpower") with
  | none => (st, none)
  | some entry =>
    if st.next_hour.getD 0 ≤ current then
      let powers := env.hourQueryPowers.filterMap id
      let hrs :=
        if env.hourQueryPowers.isEmpty then none
        else if powers.isEmpty then none
        else some (round2 (ratMean powers))
      ({ st with hourly_data := [], next_hour := some (next_hour_of current) },
        hrs)
    else ({ st with hourly_data := st.hourly_data ++ [(nst, entry.2)] }, none)

/-- The `next_hour` initialization at the top of
`calculate_and_save_averages`. -/
def initNextHour (st : CacheState) (current : ℤ) : CacheState :=
  if st.next_hour.isNone then
    { st with next_hour := some (next_hour_of current) }
  else st

/-- The body of `calculate_and_save_averages` after the `next_hour`
initialization: return `False` before the flush trigger or on an empty
buffer; otherwise build the minute record at `next_save_time` from the
averages restricted to the model's columns, run the hourly section,
commit (a commit error is caught, returning `False` with the buffer
intact), then clear the buffer, advance `next_save_time` and possibly run
the daily aggregation. -/
def flushCore (env : FlushEnv) (st0 : CacheState) (current : ℤ) :
    FlushResult :=
  if !is_save_time st0 current then
    { saved := false, state := st0, writes := [] }
  else
    match calculate_averages (dfRows st0) with
    | none => { saved := false, state := st0, writes := [] }
    | some averages =>
      if averages.isEmpty then { saved := false, state := st0, writes := [] }
      else
        let nst := st0.next_save_time.getD 0
        let hs := hourlySection env st0 current nst averages
        let stH := hs.1
        if !env.persistOk then
          { saved := false, state := stH, writes := [] }
        else
          let fields := averages.filter (fun p => p.1 ∈ env.schema)
          let st2 :=
            { stH with data := [], next_save_time := some (next_minute current) }
          let daily := should_aggregate_daily st2 current
          let dailyWrites :=
            if daily.1 then aggregate_daily_data env current else []
          { saved := true
            state := daily.2
            writes := DBWrite.minuteRecord nst fields hs.2 :: dailyWrites }

/-- `UPSDataCache.calculate_and_save_averages(db, UPSDynamicData,
current_time)`: initialize `next_hour` if unset, then run the flush
body. -/
def calculate_and_save_averages (env : FlushEnv) (st : CacheState)
    (current : ℤ) : FlushResult :=
  flushCore env (initNextHour st current) current

/-! ## UPS reader (`core/db/ups/utils.py`, `core/db/ups/data.py`) -/

/-- The raw key→value dict parsed from the status command's output
(values still strings). -/
abbrev RawData := List (String × String)

/-- Dict lookup on raw data. -/
def lookupS (r : RawData) (k : String) : Option String :=
  (r.find? (fun p => p.1 == k)).map Prod.snd

/-- Dict assignment on raw data. -/
def dictInsertS (r : RawData) (k v : String) : RawData :=
  if (r.find? (fun p => p.1 == k)).isSome then
    r.map (fun p => if p.1 == k then (k, v) else p)
  else r ++ [(k, v)]

/-- The current real-power value: `ups.realpower` first, then
`ups_realpower`. -/
def currentRealpowerValue (data : RawData) : Option String :=
  (lookupS data "ups.realpower").orElse (fun _ => lookupS data "ups_realpower")

/-- The load value: `ups.load` first, then `ups_load`. -/
def loadValueOf (data : RawData) : Option String :=
  (lookupS data "ups.load").orElse (fun _ => lookupS data "ups_load")

/-- The nominal-power value: `ups.realpower.nominal`, then
`ups_realpower_nominal`, then `UPS_REALPOWER_NOMINAL`. -/
def nominalValueOf (data : RawData) : Option String :=
  ((lookupS data "ups.realpower.nominal").orElse
    (fun _ => lookupS data "ups_realpower_nominal")).orElse
    (fun _ => lookupS data "UPS_REALPOWER_NOMINAL")

/-- The body of `calculate_realpower` up to its `except` handler; `none`
means a `float()` call raised, in which case the handler returns the data
unchanged. -/
def calcRealpowerCore (fallbackNominal : ℚ) (data : RawData) :
    Option RawData := do
  let needCalc ←
    match currentRealpowerValue data with
    | none => pure true
    | some v => do
      let q ← parsePyFloat v
      pure (q == 0)
  if !needCalc then pure data
  else
    let load_percent ←
      match loadValueOf data with
      | none => pure (0 : ℚ)
      | some v => parsePyFloat v
    let nominal_power ←
      match nominalValueOf data with
      | none => pure fallbackNominal
      | some v => parsePyFloat v
    if 0 < load_percent ∧ 0 < nominal_power then
      let realpower := nominal_power * load_percent / 100
      let s := fmtRound2 (round2 realpower)
      pure (dictInsertS (dictInsertS data "ups.realpower" s) "ups_realpower" s)
    else pure data

/-- `calculate_realpower(data)` (`core/db/ups/utils.py`): derive
`ups_realpower` as `nominal_power * load_percent / 100` when the field is
absent or zero and both factors are positive, storing
`str(round(realpower, 2))` under both key spellings; on any error (or
when a factor is not positive) the data is returned unchanged. -/
def calculate_realpower (fallbackNominal : ℚ) (data : RawData) : RawData :=
  (calcRealpowerCore fallbackNominal data).getD data

/-- The `name`/`host`/`command` fields of the `UPSConfig` singleton. -/
structure UPSConfigState where
  command : Option String
  name : Option String
  host : Option String

/-- Python truthiness test `not x` for an optional string field. -/
def pyFalsyStr : Option String → Bool
  | none => true
  | some s => s == ""

/-- What one `get_ups_data` call observes from the outside world: the
status command's exit code and stdout lines, and the configured
`UPS_REALPOWER_NOMINAL` fallback. -/
structure ReaderEnv where
  returncode : ℤ
  stdoutLines : List String
  fallbackNominal : ℚ

/-- The errors of `core/db/ups/errors.py` as raised from `get_ups_data`. -/
inductive ReaderError where
  | connectionError (msg : String)
  | dataError (msg : String)
deriving Repr, DecidableEq

/-- `line.split(':', 1)`: the text before the first colon and everything
after it; `none` when the line has no colon. -/
def splitColon1 : List Char → Option (List Char × List Char)
  | [] => none
  | c :: rest =>
    if c = ':' then some ([], rest)
    else
      match splitColon1 rest with
      | some kv => some (c :: kv.1, kv.2)
      | none => none

/-- One `key: value` stdout line: `split(':', 1)` with both halves
stripped; lines without a colon are skipped. -/
def parseStatusLine (line : String) : Option (String × String) :=
  match splitColon1 line.toList with
  | some kv => some (pyStrip (String.mk kv.1), pyStrip (String.mk kv.2))
  | none => none

/-- The stdout parsing loop of `get_ups_data`. -/
def parseStdout (lines : List String) : RawData :=
  lines.foldl (fun acc line =>
    match parseStatusLine line with
    | some kv => dictInsertS acc kv.1 kv.2
    | none => acc) []

/-- The placeholder sample returned when the UPS name or host is
missing. -/
def errorPlaceholder : Row :=
  [("ups_status", NutValue.str "ERROR"),
   ("battery_charge", NutValue.num 0),
   ("battery_runtime", NutValue.num 0),
   ("input_voltage", NutValue.num 0),
   ("output_voltage", NutValue.num 0)]

/-- The key/value transformation of `get_ups_data`: dotted keys become
underscored, and values that `float()` accepts become numbers. -/
def transformData (raw : RawData) : Row :=
  raw.foldl (fun acc p =>
    let k := dotToUnderscore p.1
    match parsePyFloat p.2 with
    | some q => dictInsert acc k (NutValue.num q)
    | none => dictInsert acc k (NutValue.str p.2)) []

/-- `get_ups_data()` (`core/db/ups/data.py`): default the command path,
return the `ERROR` placeholder when name or host is missing, fail when
the status command exits nonzero (the inner `UPSConnectionError` is
re-raised as `UPSDataError` by the outer handler), else parse, derive
real power, and transform the output into a sample. -/
def get_ups_data (cfg : UPSConfigState) (env : ReaderEnv) :
    Except ReaderError Row :=
  let _command :=
    if pyFalsyStr cfg.command then some "/usr/bin/upsc" else cfg.command
  if pyFalsyStr cfg.name || pyFalsyStr cfg.host then
    Except.ok errorPlaceholder
  else if env.returncode ≠ 0 then
    Except.error (ReaderError.dataError "Failed to get UPS data")
  else
    Except.ok (transformData
      (calculate_realpower env.fallbackNominal (parseStdout env.stdoutLines)))

/-! ## Fixtures: concrete instances used by witnesses -/

/-- The same dispatch environment with different channel-send failure
outcomes (used to state that channel failures are isolated). -/
def withFails (w : DispatchWorld) (ef nf : ℕ → Bool) (wr wo : Bool) :
    DispatchWorld :=
  { w with
    emailSendFails := ef
    ntfySendFails := nf
    webhookRaises := wr
    webhookResultOk := wo }

/-- The polling loop's successive `add` calls. -/
def cache_add_all (st : CacheState) (samples : List (ℤ × String × Row)) :
    CacheState :=
  samples.foldl (fun s p => cache_add s p.1 p.2.1 p.2.2) st

/-- An event table with one open ONBATT event. -/
def c1SampleDB : EventDB :=
  [{ timestamp_tz := 10, timestamp_tz_begin := 10, timestamp_tz_end := none,
     ups_name := "ups1", event_type := "ONBATT", source_ip := none,
     acknowledged := false }]

/-- A dispatch environment where every channel is enabled and the webhook
send raises. -/
def isoWorld : DispatchWorld :=
  { storeOk := true
    emailNotifications := [7]
    emailConfigOk := true
    hasNtfy := true
    ntfyConfigs := [3]
    hasWebhook := true
    emailSendFails := fun _ => false
    ntfySendFails := fun _ => false
    webhookRaises := true
    webhookResultOk := true }

/-- A cache one minute before its boundary with a full 60-sample buffer. -/
def c4State : CacheState :=
  { mkCache 60 with next_save_time := some 120
                    data := List.replicate 60 ((0 : ℤ), ([] : Row)) }

/-- A cache with an empty buffer awaiting its minute boundary. -/
def c6State : CacheState :=
  { mkCache 60 with next_save_time := some 120 }

/-- A flush environment whose commits succeed. -/
def c6Env : FlushEnv :=
  { persistOk := true
    schema := ["ups_load"]
    hourQueryPowers := []
    dailyAvgQuery := none
    dailyPersistOk := true }

/-- A cache with one buffered sample at its minute boundary. -/
def c8State : CacheState :=
  { mkCache 60 with next_save_time := some 120
                    data := [(100, [("ups_load", NutValue.num 42)])] }

/-- A flush environment whose minute-record commit fails. -/
def c8Env : FlushEnv :=
  { persistOk := false
    schema := ["ups_load"]
    hourQueryPowers := []
    dailyAvgQuery := none
    dailyPersistOk := true }

/-- A previously broadcast payload. -/
def c9Last : Row :=
  [("timestamp", NutValue.str "t1"), ("ups_status", NutValue.str "OL"),
   ("ups_load", NutValue.num 30)]

/-- The next polled sample: same status, metrics unchanged. -/
def c9Sample : Row :=
  [("ups_status", NutValue.str "OL"), ("ups_load", NutValue.num 30)]

/-- A cache that has already broadcast once. -/
def c9State : CacheState :=
  { mkCache 60 with last_broadcast := some c9Last }

/-! ## Claims C1-C3: event store and dispatch -/

theorem isOpenFor_closed (name : String) (now : ℤ) (e : UPSEvent) :
    isOpenFor name { e with timestamp_tz_end := some now } = false := by
  simp [isOpenFor]

theorem open_close_self (name : String) (now : ℤ) (db : EventDB) :
    openEvents (close_previous_events name now db) name = [] := by
  induction db with
  | nil => rfl
  | cons e es ih =>
    show List.filter (isOpenFor name)
      ((if isOpenFor name e then { e with timestamp_tz_end := some now } else e)
        :: close_previous_events name now es) = []
    cases h : isOpenFor name e with
    | true =>
      simp only [reduceIte, List.filter_cons, isOpenFor_closed, Bool.false_eq_true,
        if_false]
      exact ih
    | false =>
      simp only [Bool.false_eq_true, reduceIte, List.filter_cons, h, if_false]
      exact ih

theorem isOpenFor_other_closed (name n : String) (hne : n ≠ name) (now : ℤ)
    (e : UPSEvent) (h : isOpenFor name e = true) :
    isOpenFor n { e with timestamp_tz_end := some now } = false
    ∧ isOpenFor n e = false := by
  have hname : e.ups_name = name := by
    simp only [isOpenFor, Bool.and_eq_true, beq_iff_eq] at h
    exact h.1
  constructor
  · simp [isOpenFor, hname, Ne.symm hne]
  · simp [isOpenFor, hname, Ne.symm hne]

theorem open_close_other (name n : String) (hne : n ≠ name) (now : ℤ)
    (db : EventDB) :
    openEvents (close_previous_events name now db) n = openEvents db n := by
  induction db with
  | nil => rfl
  | cons e es ih =>
    show List.filter (isOpenFor n)
      ((if isOpenFor name e then { e with timestamp_tz_end := some now } else e)
        :: close_previous_events name now es)
      = List.filter (isOpenFor n) (e :: es)
    cases h : isOpenFor name e with
    | true =>
      have h2 := isOpenFor_other_closed name n hne now e h
      simp only [reduceIte, List.filter_cons, h2.1, h2.2, Bool.false_eq_true,
        if_false]
      exact ih
    | false =>
      simp only [Bool.false_eq_true, reduceIte, List.filter_cons]
      cases h3 : isOpenFor n e with
      | true =>
        simp only [if_true]
        exact congrArg (e :: ·) ih
      | false => simp only [Bool.false_eq_true, if_false]; exact ih

theorem open_new_self (name etype : String) (ip : Option String) (now : ℤ) :
    isOpenFor name (newEvent name etype ip now) = true := by
  simp [isOpenFor, newEvent]

theorem open_new_other (name n etype : String) (hne : n ≠ name)
    (ip : Option String) (now : ℤ) :
    isOpenFor n (newEvent name etype ip now) = false := by
  simp [isOpenFor, newEvent, Ne.symm hne]

/-- C1: recording a new event first sets the end timestamp of every open
event of that UPS to the new begin timestamp and then inserts the new open
row (end NULL, acknowledged false), so at most one Event row with a NULL
end exists per UPS name at any time. -/
theorem C1_open_event_invariant (db : EventDB) (name etype : String)
    (ip : Option String) (now : ℤ)
    (hinv : ∀ n, (openEvents db n).length ≤ 1) :
    openEvents (store_event_in_database name etype ip now db) name
        = [newEvent name etype ip now]
    ∧ (∀ n, n ≠ name →
        openEvents (store_event_in_database name etype ip now db) n
          = openEvents db n)
    ∧ (∀ n,
        (openEvents (store_event_in_database name etype ip now db) n).length ≤ 1)
    ∧ (∀ e ∈ db, isOpenFor name e = true →
        { e with timestamp_tz_end := some now }
          ∈ store_event_in_database name etype ip now db)
    ∧ (newEvent name etype ip now).timestamp_tz_begin = now
    ∧ (newEvent name etype ip now).timestamp_tz_end = none
    ∧ (newEvent name etype ip now).acknowledged = false := by
  have hself : openEvents (store_event_in_database name etype ip now db) name
      = [newEvent name etype ip now] := by
    unfold store_event_in_database openEvents
    rw [List.filter_append]
    have h1 := open_close_self name now db
    simp only [openEvents] at h1
    rw [h1]
    simp [List.filter_cons, open_new_self]
  have hother : ∀ n, n ≠ name →
      openEvents (store_event_in_database name etype ip now db) n
        = openEvents db n := by
    intro n hn
    unfold store_event_in_database openEvents
    rw [List.filter_append]
    have h1 := open_close_other name n hn now db
    simp only [openEvents] at h1
    rw [h1]
    simp [List.filter_cons, open_new_other name n etype hn ip now, openEvents]
  refine ⟨hself, hother, ?_, ?_, rfl, rfl, rfl⟩
  · intro n
    by_cases hn : n = name
    · subst hn; rw [hself]; simp
    · rw [hother n hn]; exact hinv n
  · intro e he hopen
    unfold store_event_in_database
    refine List.mem_append.mpr (Or.inl ?_)
    unfold close_previous_events
    refine List.mem_map.mpr ⟨e, he, ?_⟩
    rw [if_pos hopen]

theorem C1_open_event_invariant_witness :
    openEvents (store_event_in_database "ups1" "ONLINE" none 20 c1SampleDB) "ups1"
      = [newEvent "ups1" "ONLINE" none 20]
    ∧ ∀ n,
        (openEvents (store_event_in_database "ups1" "ONLINE" none 20 c1SampleDB)
          n).length ≤ 1 := by
  have h := C1_open_event_invariant c1SampleDB "ups1" "ONLINE" none 20
    (fun n => le_trans (List.length_filter_le _ _) (by simp [c1SampleDB]))
  exact ⟨h.1, h.2.2.1⟩

/-- C2: `process_ups_event` records the event before any channel is
attempted, returns failure exactly when event recording failed, and a
failure raised by any channel send neither changes which jobs are
attempted nor un-persists the event row or the success result. -/
theorem C2_dispatch_isolation (w : DispatchWorld) :
    (process_ups_event w).success = w.storeOk
    ∧ (process_ups_event w).eventPersisted = w.storeOk
    ∧ (process_ups_event w).trace.head? = some (DispatchAction.record, w.storeOk)
    ∧ (w.storeOk = false →
        (process_ups_event w).trace = [(DispatchAction.record, false)])
    ∧ (∀ (ef nf : ℕ → Bool) (wr wo : Bool),
        ((process_ups_event (withFails w ef nf wr wo)).trace.map Prod.fst
          = (process_ups_event w).trace.map Prod.fst)
        ∧ (process_ups_event (withFails w ef nf wr wo)).success
          = (process_ups_event w).success
        ∧ (process_ups_event (withFails w ef nf wr wo)).eventPersisted
          = (process_ups_event w).eventPersisted) := by
  cases hs : w.storeOk with
  | false =>
    refine ⟨?_, ?_, ?_, ?_, ?_⟩ <;>
      simp [process_ups_event, withFails, hs]
  | true =>
    refine ⟨?_, ?_, ?_, ?_, ?_⟩
    · simp only [process_ups_event, hs, Bool.not_true, Bool.false_eq_true,
        if_false]
      split <;> rfl
    · simp only [process_ups_event, hs, Bool.not_true, Bool.false_eq_true,
        if_false]
      split <;> rfl
    · simp only [process_ups_event, hs, Bool.not_true, Bool.false_eq_true,
        if_false]
      split <;> rfl
    · intro hfalse; simp [hs] at hfalse
    · intro ef nf wr wo
      refine ⟨?_, ?_, ?_⟩
      · simp only [process_ups_event, withFails, hs, Bool.not_true,
          Bool.false_eq_true, if_false, get_enabled_ntfy_configs]
        split_ifs <;>
          simp [List.map_append, List.map_map, Function.comp_def]
      · simp only [process_ups_event, withFails, hs, Bool.not_true,
          Bool.false_eq_true, if_false, get_enabled_ntfy_configs]
        split_ifs <;> rfl
      · simp only [process_ups_event, withFails, hs, Bool.not_true,
          Bool.false_eq_true, if_false, get_enabled_ntfy_configs]
        split_ifs <;> rfl

theorem C2_dispatch_isolation_witness :
    (process_ups_event isoWorld).success = isoWorld.storeOk
    ∧ (process_ups_event isoWorld).eventPersisted = isoWorld.storeOk
    ∧ (process_ups_event isoWorld).trace.head?
        = some (DispatchAction.record, isoWorld.storeOk) := by
  have h := C2_dispatch_isolation isoWorld
  exact ⟨h.1, h.2.1, h.2.2.1⟩

/-- C3: recording ONBATT at `T0` and ONLINE at `T0 + 300` closes the
ONBATT event at `T0 + 300`, opens the ONLINE event at `T0 + 300`, and the
battery duration derived for the ONLINE notification is `"5 min"`. -/
theorem C3_event_bracketing (T0 : ℤ) (ip : Option String) (name : String)
    (up : Option ℕ) :
    ∃ eBatt eOnline : UPSEvent,
      store_event_in_database name "ONLINE" ip (T0 + 300)
          (store_event_in_database name "ONBATT" ip T0 []) = [eBatt, eOnline]
      ∧ eBatt.event_type = "ONBATT"
      ∧ eBatt.timestamp_tz_begin = T0
      ∧ eBatt.timestamp_tz_end = some (T0 + 300)
      ∧ eOnline.event_type = "ONLINE"
      ∧ eOnline.timestamp_tz_begin = T0 + 300
      ∧ eOnline.timestamp_tz_end = none
      ∧ battery_duration_for_online
          (store_event_in_database name "ONLINE" ip (T0 + 300)
            (store_event_in_database name "ONBATT" ip T0 []))
          name (T0 + 300) up = "5 min" := by
  have hdb : store_event_in_database name "ONLINE" ip (T0 + 300)
      (store_event_in_database name "ONBATT" ip T0 [])
      = [{ newEvent name "ONBATT" ip T0 with timestamp_tz_end := some (T0 + 300) },
         newEvent name "ONLINE" ip (T0 + 300)] := by
    simp [store_event_in_database, close_previous_events, open_new_self]
  refine ⟨_, _, hdb, rfl, rfl, rfl, rfl, rfl, rfl, ?_⟩
  rw [hdb]
  have h1 : openOnbattQuery
      [{ newEvent name "ONBATT" ip T0 with timestamp_tz_end := some (T0 + 300) },
       newEvent name "ONLINE" ip (T0 + 300)] name = none := by
    simp [openOnbattQuery, maxByTimestamp, newEvent, List.filter_cons]
  have h2 : closedOnbattTop5
      [{ newEvent name "ONBATT" ip T0 with timestamp_tz_end := some (T0 + 300) },
       newEvent name "ONLINE" ip (T0 + 300)] name
      = [{ newEvent name "ONBATT" ip T0 with timestamp_tz_end := some (T0 + 300) }] := by
    simp [closedOnbattTop5, sortDescByTimestamp, insertDesc, newEvent,
      List.filter_cons]
  simp only [battery_duration_for_online, h1, h2]
  have h5 : toString (Int.tdiv 300 60) ++ " min" = "5 min" := by decide
  have h3 : T0 + 300 - (T0 + 300) < 3600 := by omega
  have h4 : T0 + 300 - T0 = 300 := by omega
  simp only [findRelevantClosed, newEvent, h3, h4, minutesString, if_true,
    reduceIte, h5]
  rfl

/-! ## Claims C4, C6, C8: buffer cap and flush -/

theorem broadcast_state_frame (st : CacheState) (nowIso : String) (d : Row) :
    (broadcast_cache_update st nowIso d).2.size = st.size
    ∧ (broadcast_cache_update st nowIso d).2.data = st.data
    ∧ (broadcast_cache_update st nowIso d).2.next_save_time
        = st.next_save_time := by
  unfold broadcast_cache_update
  by_cases h : d.isEmpty
  · simp [h]
  · cases hlb : st.last_broadcast with
    | none => simp [h, hlb]
    | some last =>
      simp only [h, hlb, Bool.false_eq_true, if_false]
      split <;> simp

theorem cache_add_shape (st : CacheState) (ts : ℤ) (nowIso : String)
    (d : Row) :
    (cache_add st ts nowIso d).size = st.size
    ∧ (cache_add st ts nowIso d).data.length = st.data.length + 1
    ∧ (cache_add st ts nowIso d).next_save_time
        = some (st.next_save_time.getD (next_minute ts)) := by
  unfold cache_add
  cases hn : st.next_save_time with
  | none =>
    have hb := broadcast_state_frame
      { st with next_save_time := some (next_minute ts),
                data := st.data ++ [(ts, formatKeysRow d)] } nowIso
      (formatKeysRow d)
    simp_all [hn]
  | some x =>
    have hb := broadcast_state_frame
      { st with data := st.data ++ [(ts, formatKeysRow d)] } nowIso
      (formatKeysRow d)
    simp_all [hn]

theorem cache_add_all_shape (samples : List (ℤ × String × Row))
    (st : CacheState) :
    (cache_add_all st samples).size = st.size
    ∧ (cache_add_all st samples).data.length
        = st.data.length + samples.length
    ∧ (samples ≠ [] → (cache_add_all st samples).next_save_time.isSome) := by
  induction samples generalizing st with
  | nil => simp [cache_add_all]
  | cons p ps ih =>
    have hstep := cache_add_shape st p.1 p.2.1 p.2.2
    have htail := ih (cache_add st p.1 p.2.1 p.2.2)
    refine ⟨?_, ?_, ?_⟩
    · show (cache_add_all (cache_add st p.1 p.2.1 p.2.2) ps).size = st.size
      rw [htail.1, hstep.1]
    · show (cache_add_all (cache_add st p.1 p.2.1 p.2.2) ps).data.length
        = st.data.length + (ps.length + 1)
      rw [htail.2.1, hstep.2.1]
      omega
    · intro _
      by_cases hps : ps = []
      · subst hps
        show (cache_add_all (cache_add st p.1 p.2.1 p.2.2) []).next_save_time.isSome
        simp [cache_add_all, hstep.2.2]
      · exact htail.2.2 hps

/-- C4 counterexample: when the polling interval changes from 2 back to 1,
the buffer cap is not recomputed: it stays 30 instead of
`max(5, CACHE_SECONDS / 1) = 60`, refuting the claim that the cap is
recomputed whenever the polling interval changes. -/
theorem C4_cap_stale_at_interval_one :
    adjust_cache_size 60 2 = 30
    ∧ adjust_cache_size (adjust_cache_size 60 2) 1 = 30
    ∧ max 5 (CACHE_SECONDS / 1) = 60
    ∧ adjust_cache_size (adjust_cache_size 60 2) 1 ≠ max 5 (CACHE_SECONDS / 1) := by
  refine ⟨?_, ?_, ?_, ?_⟩ <;> decide

/-- C4 (amended): with `next_save_time` set, `is_save_time` is true iff
the time reached `next_save_time` or the buffer reached the cap; the cap
is recomputed to `max(5, CACHE_SECONDS / polling)` only when the polling
interval exceeds 1 (an interval of 1 keeps the previous cap); with the
initial cap `CACHE_SECONDS = 60`, the 60th `add` triggers `is_save_time`
purely from the cap, and no flush happens before the boundary with fewer
than cap samples. -/
theorem C4_flush_trigger_amended (st : CacheState) (t nst : ℤ)
    (h : st.next_save_time = some nst) :
    (is_save_time st t = true ↔ nst ≤ t ∨ st.size ≤ st.data.length)
    ∧ (∀ size polling : ℕ, 1 < polling →
        adjust_cache_size size polling = max 5 (CACHE_SECONDS / polling))
    ∧ (∀ size : ℕ, adjust_cache_size size 1 = size)
    ∧ (∀ samples : List (ℤ × String × Row), samples.length = 60 →
        is_save_time (cache_add_all (mkCache CACHE_SECONDS) samples) t = true)
    ∧ (st.data.length < st.size → t < nst → is_save_time st t = false) := by
  refine ⟨?_, ?_, ?_, ?_, ?_⟩
  · simp [is_save_time, h]
  · intro size polling hp
    simp [adjust_cache_size, hp]
  · intro size
    simp [adjust_cache_size]
  · intro samples hlen
    have hshape := cache_add_all_shape samples (mkCache CACHE_SECONDS)
    have hne : samples ≠ [] := by
      intro hemp; rw [hemp] at hlen; simp at hlen
    have hsome := hshape.2.2 hne
    cases hnst : (cache_add_all (mkCache CACHE_SECONDS) samples).next_save_time with
    | none => rw [hnst] at hsome; simp at hsome
    | some y =>
      simp only [is_save_time, hnst]
      have hsz : (cache_add_all (mkCache CACHE_SECONDS) samples).size = 60 :=
        hshape.1
      have hln : (cache_add_all (mkCache CACHE_SECONDS) samples).data.length
          = 60 := by
        rw [hshape.2.1, hlen]; rfl
      rw [hsz, hln]
      simp
  · intro h1 h2
    simp only [is_save_time, h]
    rw [decide_eq_false (not_le.mpr h2), decide_eq_false (not_le.mpr h1)]
    rfl

theorem C4_flush_trigger_amended_witness :
    (is_save_time c4State 60 = true ↔
      (120 : ℤ) ≤ 60 ∨ c4State.size ≤ c4State.data.length)
    ∧ is_save_time c4State 60 = true := by
  have hmain := C4_flush_trigger_amended c4State 60 120 rfl
  exact ⟨hmain.1, hmain.1.mpr (Or.inr (by decide))⟩

theorem initNextHour_frame (st : CacheState) (current : ℤ) :
    (initNextHour st current).data = st.data
    ∧ (initNextHour st current).next_save_time = st.next_save_time
    ∧ (initNextHour st current).size = st.size := by
  unfold initNextHour
  split <;> exact ⟨rfl, rfl, rfl⟩

theorem hourlySection_frame (env : FlushEnv) (st : CacheState)
    (current nst : ℤ) (averages : List (String × Option NutValue)) :
    (hourlySection env st current nst averages).1.data = st.data
    ∧ (hourlySection env st current nst averages).1.next_save_time
        = st.next_save_time
    ∧ (hourlySection env st current nst averages).1.size = st.size := by
  unfold hourlySection
  split
  · exact ⟨rfl, rfl, rfl⟩
  · refine ⟨?_, ?_, ?_⟩ <;> (split_ifs <;> rfl)

/-- C6: invoking the minute flush with an empty buffer returns `False`
and writes no Aggregate Record. -/
theorem C6_empty_buffer_noop (env : FlushEnv) (st : CacheState) (current : ℤ)
    (h : st.data = []) :
    (calculate_and_save_averages env st current).saved = false
    ∧ (calculate_and_save_averages env st current).writes = [] := by
  unfold calculate_and_save_averages
  have h0 : (initNextHour st current).data = [] :=
    (initNextHour_frame st current).1.trans h
  unfold flushCore
  by_cases hsave : is_save_time (initNextHour st current) current
  · have hrows : dfRows (initNextHour st current) = [] := by
      simp [dfRows, h0]
    simp [hsave, hrows, calculate_averages]
  · simp [hsave]

theorem C6_empty_buffer_noop_witness :
    (calculate_and_save_averages c6Env c6State 200).saved = false
    ∧ (calculate_and_save_averages c6Env c6State 200).writes = [] :=
  C6_empty_buffer_noop c6Env c6State 200 rfl

/-- C8: if the persist step of the minute flush fails,
`calculate_and_save_averages` returns `False`, writes nothing, and leaves
the sample buffer and `next_save_time` untouched, so the samples are
retried at the next flush attempt. -/
theorem C8_persist_error_retains_buffer (env : FlushEnv) (st : CacheState)
    (current : ℤ) (h : env.persistOk = false) :
    (calculate_and_save_averages env st current).saved = false
    ∧ (calculate_and_save_averages env st current).state.data = st.data
    ∧ (calculate_and_save_averages env st current).state.next_save_time
        = st.next_save_time
    ∧ (calculate_and_save_averages env st current).writes = [] := by
  unfold calculate_and_save_averages
  have hin := initNextHour_frame st current
  unfold flushCore
  by_cases hsave : is_save_time (initNextHour st current) current
  · cases havg : calculate_averages (dfRows (initNextHour st current)) with
    | none => simp [hsave, havg, hin.1, hin.2.1]
    | some averages =>
      by_cases hemp : averages.isEmpty
      · simp [hsave, havg, hemp, hin.1, hin.2.1]
      · have hh := hourlySection_frame env (initNextHour st current) current
          ((initNextHour st current).next_save_time.getD 0) averages
        rw [Bool.not_eq_true] at hemp
        simp only [hsave, Bool.not_true, Bool.false_eq_true, if_false, havg,
          hemp, h, Bool.not_false, if_true]
        exact ⟨trivial, hh.1.trans hin.1, hh.2.1.trans hin.2.1, trivial⟩
  · simp [hsave, hin.1, hin.2.1]

theorem C8_persist_error_retains_buffer_witness :
    (calculate_and_save_averages c8Env c8State 120).saved = false
    ∧ (calculate_and_save_averages c8Env c8State 120).state.data
        = c8State.data
    ∧ (calculate_and_save_averages c8Env c8State 120).state.next_save_time
        = c8State.next_save_time
    ∧ (calculate_and_save_averages c8Env c8State 120).writes = [] :=
  C8_persist_error_retains_buffer c8Env c8State 120 rfl

/-! ## Claim C5: averaging -/

theorem lookup_pair_map_of_mem {α : Type} (l : List String) (f : String → α)
    (c : String) (hc : c ∈ l) :
    List.lookup c (l.map (fun x => (x, f x))) = some (f c) := by
  induction l with
  | nil => simp at hc
  | cons x xs ih =>
    by_cases hx : c = x
    · subst hx
      simp [List.lookup]
    · have hmem : c ∈ xs := by
        rcases List.mem_cons.mp hc with h1 | h1
        · exact absurd h1 hx
        · exact h1
      have hbeq : (c == x) = false := beq_eq_false_iff_ne.mpr hx
      simp only [List.map_cons, List.lookup, hbeq]
      exact ih hmem

theorem lookup_pair_map_of_not_mem {α : Type} (l : List String)
    (f : String → α) (c : String) (hc : c ∉ l) :
    List.lookup c (l.map (fun x => (x, f x))) = none := by
  induction l with
  | nil => rfl
  | cons x xs ih =>
    have hx : c ≠ x := fun he => hc (he ▸ List.mem_cons_self x xs)
    have hbeq : (c == x) = false := beq_eq_false_iff_ne.mpr hx
    simp only [List.map_cons, List.lookup, hbeq]
    exact ih (fun hmem => hc (List.mem_cons_of_mem x hmem))

theorem lookup_append_first {α : Type} (l1 l2 : List (String × α))
    (c : String) :
    List.lookup c (l1 ++ l2)
      = ((List.lookup c l1).orElse (fun _ => List.lookup c l2)) := by
  induction l1 with
  | nil => rfl
  | cons p ps ih =>
    cases hbeq : (c == p.1) with
    | true => simp [List.lookup, hbeq]
    | false => simpa [List.lookup, hbeq] using ih

/-- C5: for a non-empty buffer, `calculate_averages` maps each numeric
column (timestamp excluded) to its mean rounded to 2 decimals and each
non-numeric column to the last buffered value; an empty buffer yields
`None`; a single sample with `ups_load = 42.0` yields `42.0`. -/
theorem C5_calculate_averages (rows : List Row) (h : rows ≠ []) :
    (∃ res, calculate_averages rows = some res
      ∧ (∀ c, c ∈ buildColumns rows → colIsNumeric rows c = true →
          List.lookup c res
            = some (some (NutValue.num (round2 (ratMean (numValues rows c))))))
      ∧ (∀ c, c ∈ buildColumns rows → colIsNumeric rows c = false →
          c ≠ "timestamp" →
          List.lookup c res = some (lookupVal ((rows.getLast?).getD []) c)))
    ∧ calculate_averages [] = none
    ∧ calculate_averages
        [[("timestamp", NutValue.time 0), ("ups_load", NutValue.num 42)]]
        = some [("ups_load", some (NutValue.num 42))] := by
  have hstruct : calculate_averages
      [[("timestamp", NutValue.time 0), ("ups_load", NutValue.num 42)]]
      = some [("ups_load", some (NutValue.num (round2 (ratMean [42]))))] := rfl
  have hmean : ratMean [(42 : ℚ)] = 42 := by norm_num [ratMean]
  have h42 : round2 (42 : ℚ) = 42 := by norm_num [round2, roundHalfEven]
  refine ⟨?_, rfl, by rw [hstruct, hmean, h42]⟩
  · have hne : rows.isEmpty = false := by
      cases rows with
      | nil => exact absurd rfl h
      | cons r rs => rfl
    refine ⟨_, by rw [calculate_averages, hne]; rfl, ?_, ?_⟩
    · intro c hc hnum
      rw [lookup_append_first]
      rw [lookup_pair_map_of_mem _ _ _
        (List.mem_filter.mpr ⟨hc, by rw [hnum]⟩)]
      rfl
    · intro c hc hnum hts
      rw [lookup_append_first]
      rw [lookup_pair_map_of_not_mem _ _ _
        (fun hmem => by
          have := (List.mem_filter.mp hmem).2
          rw [hnum] at this
          exact Bool.false_ne_true this)]
      have hnone : ∀ (f : Unit → Option (Option NutValue)),
          (Option.orElse none f) = f () := fun _ => rfl
      rw [hnone]
      rw [lookup_pair_map_of_mem _ _ _
        (List.mem_filter.mpr
          ⟨List.mem_filter.mpr ⟨hc, by rw [hnum]; rfl⟩, by simpa using hts⟩)]

/-! ## Claim C7: real-power derivation -/

theorem parse_fifty : parsePyFloat "50" = some 50 := by
  have hd : digitsVal ['5', '0'] = 50 := by decide
  show some ((1 : ℚ) * ((digitsVal ['5', '0'] : ℕ) : ℚ)) = some 50
  rw [hd]
  norm_num

theorem parse_four_hundred : parsePyFloat "400" = some 400 := by
  have hd : digitsVal ['4', '0', '0'] = 400 := by decide
  show some ((1 : ℚ) * ((digitsVal ['4', '0', '0'] : ℕ) : ℚ)) = some 400
  rw [hd]
  norm_num

theorem parse_zero : parsePyFloat "0" = some 0 := by
  have hd : digitsVal ['0'] = 0 := by decide
  show some ((1 : ℚ) * ((digitsVal ['0'] : ℕ) : ℚ)) = some 0
  rw [hd]
  norm_num

/-- Characterization of `calculate_realpower` when the current value is
absent or zero and the load / nominal lookups parse to `L` and `N`. -/
theorem calculate_realpower_spec (d : RawData) (fallback L N : ℚ)
    (hcur : currentRealpowerValue d = none
      ∨ ∃ v, currentRealpowerValue d = some v ∧ parsePyFloat v = some 0)
    (hload : (loadValueOf d = none ∧ L = 0)
      ∨ ∃ v, loadValueOf d = some v ∧ parsePyFloat v = some L)
    (hnom : (nominalValueOf d = none ∧ N = fallback)
      ∨ ∃ v, nominalValueOf d = some v ∧ parsePyFloat v = some N) :
    calculate_realpower fallback d
      = if 0 < L ∧ 0 < N then
          dictInsertS (dictInsertS d "ups.realpower"
            (fmtRound2 (round2 (N * L / 100)))) "ups_realpower"
            (fmtRound2 (round2 (N * L / 100)))
        else d := by
  unfold calculate_realpower calcRealpowerCore
  rcases hcur with h1 | ⟨v, hv, hpv⟩ <;>
    rcases hload with ⟨hl1, hl2⟩ | ⟨lv, hlv, hlpv⟩ <;>
      rcases hnom with ⟨hn1, hn2⟩ | ⟨nv, hnv, hnpv⟩ <;>
        subst_eqs <;>
          simp_all only [Option.bind_eq_bind, Option.some_bind,
            Option.pure_def, beq_self_eq_true, Bool.not_true,
            Bool.false_eq_true, if_false, Bool.not_false, if_true] <;>
          split <;> simp

theorem parse_two_hundred : parsePyFloat "200.0" = some 200 := by
  have hd1 : digitsVal ['2', '0', '0'] = 200 := by decide
  have hd2 : digitsVal ['0'] = 0 := by decide
  show some ((1 : ℚ) * (((digitsVal ['2', '0', '0'] : ℕ) : ℚ)
    + ((digitsVal ['0'] : ℕ) : ℚ) / (10 : ℚ) ^ (1 : ℕ)))
    = some 200
  rw [hd1, hd2]
  norm_num

theorem fmt_two_hundred :
    fmtRound2 (round2 ((400 : ℚ) * 50 / 100)) = "200.0" := by
  have harith : (400 : ℚ) * 50 / 100 = 200 := by norm_num
  rw [harith]
  have hr2 : round2 (200 : ℚ) = 200 := by norm_num [round2, roundHalfEven]
  rw [hr2]
  have hfl : (⌊(200 : ℚ) * 100⌋) = 20000 := by norm_num
  simp only [fmtRound2, hfl]
  rfl

/-- C7 counterexample: with `ups_load = 0` and no `ups_realpower` key,
`calculate_realpower` leaves the data unchanged and derives nothing,
refuting the claim that the derivation happens for every result in which
the field is absent or zero. -/
theorem C7_zero_load_not_derived :
    calculate_realpower 400
        [("ups_load", "0"), ("ups_realpower_nominal", "400")]
      = [("ups_load", "0"), ("ups_realpower_nominal", "400")]
    ∧ lookupS (calculate_realpower 400
        [("ups_load", "0"), ("ups_realpower_nominal", "400")])
        "ups_realpower"
      = none := by
  have h := calculate_realpower_spec
    [("ups_load", "0"), ("ups_realpower_nominal", "400")] 400 0 400
    (Or.inl rfl)
    (Or.inr ⟨"0", rfl, parse_zero⟩)
    (Or.inr ⟨"400", rfl, parse_four_hundred⟩)
  rw [if_neg (by norm_num)] at h
  exact ⟨h, by rw [h]; rfl⟩

/-- C7 (amended): when `ups_realpower` is absent or zero and both the
load and the nominal power are positive, the reader derives
`ups_realpower = nominal_power * load_percent / 100` (device nominal if
present, else the configured fallback); otherwise the data is unchanged.
With `ups_load = 50` and `ups_realpower_nominal = 400` the produced
sample has `ups_realpower = 200.0`. -/
theorem C7_realpower_derivation_amended (d : RawData) (fallback L N : ℚ)
    (hcur : currentRealpowerValue d = none
      ∨ ∃ v, currentRealpowerValue d = some v ∧ parsePyFloat v = some 0)
    (hload : (loadValueOf d = none ∧ L = 0)
      ∨ ∃ v, loadValueOf d = some v ∧ parsePyFloat v = some L)
    (hnom : (nominalValueOf d = none ∧ N = fallback)
      ∨ ∃ v, nominalValueOf d = some v ∧ parsePyFloat v = some N) :
    (0 < L → 0 < N →
      calculate_realpower fallback d
        = dictInsertS (dictInsertS d "ups.realpower"
            (fmtRound2 (round2 (N * L / 100)))) "ups_realpower"
            (fmtRound2 (round2 (N * L / 100))))
    ∧ (¬ (0 < L ∧ 0 < N) → calculate_realpower fallback d = d)
    ∧ lookupS (calculate_realpower 1000
        [("ups_load", "50"), ("ups_realpower_nominal", "400")])
        "ups_realpower"
      = some "200.0"
    ∧ lookupVal (transformData (calculate_realpower 1000
        [("ups_load", "50"), ("ups_realpower_nominal", "400")]))
        "ups_realpower"
      = some (NutValue.num 200) := by
  have h := calculate_realpower_spec d fallback L N hcur hload hnom
  have hs := calculate_realpower_spec
    [("ups_load", "50"), ("ups_realpower_nominal", "400")] 1000 50 400
    (Or.inl rfl)
    (Or.inr ⟨"50", rfl, parse_fifty⟩)
    (Or.inr ⟨"400", rfl, parse_four_hundred⟩)
  rw [if_pos (by norm_num)] at hs
  refine ⟨fun hL hN => by rw [h, if_pos ⟨hL, hN⟩],
    fun hn => by rw [h, if_neg hn], ?_, ?_⟩
  · rw [hs, fmt_two_hundred]
    rfl
  · rw [hs, fmt_two_hundred]
    have hd1 : digitsVal ['2', '0', '0'] = 200 := by decide
    have hd2 : digitsVal ['0'] = 0 := by decide
    show some (NutValue.num ((1 : ℚ) * (((digitsVal ['2', '0', '0'] : ℕ) : ℚ)
      + ((digitsVal ['0'] : ℕ) : ℚ) / (10 : ℚ) ^ (1 : ℕ))))
      = some (NutValue.num 200)
    rw [hd1, hd2]
    norm_num

theorem C7_realpower_derivation_amended_witness :
    lookupS (calculate_realpower 1000
        [("ups_load", "50"), ("ups_realpower_nominal", "400")])
        "ups_realpower"
      = some "200.0" :=
  (C7_realpower_derivation_amended
    [("ups_load", "50"), ("ups_realpower_nominal", "400")] 1000 50 400
    (Or.inl rfl)
    (Or.inr ⟨"50", rfl, parse_fifty⟩)
    (Or.inr ⟨"400", rfl, parse_four_hundred⟩)).2.2.1

/-! ## Claim C9: broadcast significance -/

theorem lookupVal_map_keyswap (ps : Row) (k kq : String) (v : NutValue)
    (hk : kq ≠ k) :
    lookupVal (ps.map (fun p => if p.1 == k then (k, v) else p)) kq
      = lookupVal ps kq := by
  induction ps with
  | nil => rfl
  | cons q qs ih =>
    cases hq : (q.1 == k) with
    | true =>
      have hq1 : q.1 = k := beq_iff_eq.mp hq
      have h1 : (k == kq) = false :=
        beq_eq_false_iff_ne.mpr (fun he => hk he.symm)
      have h2 : (q.1 == kq) = false := by rw [hq1]; exact h1
      rw [List.map_cons, if_pos hq]
      show lookupVal ((k, v)
        :: qs.map (fun p => if p.1 == k then (k, v) else p)) kq
        = lookupVal (q :: qs) kq
      simp only [lookupVal, List.find?_cons, h1, h2]
      exact ih
    | false =>
      rw [List.map_cons, if_neg (by rw [hq]; exact Bool.false_ne_true)]
      show lookupVal (q :: qs.map (fun p => if p.1 == k then (k, v) else p)) kq
        = lookupVal (q :: qs) kq
      simp only [lookupVal, List.find?_cons]
      cases hkq : (q.1 == kq) with
      | true => rfl
      | false => exact ih

theorem lookupVal_map_keyhit (r : Row) (k : String) (v : NutValue)
    (hmem : ∃ p ∈ r, p.1 = k) :
    lookupVal (r.map (fun p => if p.1 == k then (k, v) else p)) k
      = some v := by
  induction r with
  | nil =>
    rcases hmem with ⟨p, hp, _⟩
    cases hp
  | cons q qs ih =>
    cases hq : (q.1 == k) with
    | true =>
      rw [List.map_cons, if_pos hq]
      show lookupVal ((k, v)
        :: qs.map (fun p => if p.1 == k then (k, v) else p)) k = some v
      simp [lookupVal, List.find?_cons]
    | false =>
      have hqprop : ¬ q.1 = k := by
        intro he
        rw [beq_iff_eq.mpr he] at hq
        cases hq
      have hqne : (q.1 == k) = false := beq_eq_false_iff_ne.mpr hqprop
      have hmem2 : ∃ p ∈ qs, p.1 = k := by
        rcases hmem with ⟨p, hp, hpk⟩
        rcases List.mem_cons.mp hp with he | htail
        · exact absurd (he ▸ hpk) hqprop
        · exact ⟨p, htail, hpk⟩
      rw [List.map_cons, if_neg (by rw [hq]; exact Bool.false_ne_true)]
      show lookupVal (q :: qs.map (fun p => if p.1 == k then (k, v) else p)) k
        = some v
      simp only [lookupVal, List.find?_cons, hqne]
      exact ih hmem2

theorem lookupVal_dictInsert (r : Row) (k kq : String) (v : NutValue) :
    lookupVal (dictInsert r k v) kq
      = if kq = k then some v else lookupVal r kq := by
  unfold dictInsert
  cases hpres : (r.find? (fun p => p.1 == k)).isSome with
  | true =>
    simp only [hpres, if_true]
    by_cases hk : kq = k
    · subst hk
      rw [if_pos rfl]
      obtain ⟨p0, hp0⟩ := Option.isSome_iff_exists.mp hpres
      have hp0k : p0.1 = kq := by
        have h := List.find?_some hp0
        simpa using h
      exact lookupVal_map_keyhit r kq v
        ⟨p0, List.mem_of_find?_eq_some hp0, hp0k⟩
    · rw [if_neg hk]
      exact lookupVal_map_keyswap r k kq v hk
  | false =>
    simp only [hpres, Bool.false_eq_true, if_false]
    have hnone : r.find? (fun p => p.1 == k) = none :=
      Option.not_isSome_iff_eq_none.mp
        (by rw [hpres]; exact Bool.false_ne_true)
    by_cases hk : kq = k
    · subst hk
      rw [if_pos rfl]
      show ((r ++ [(kq, v)]).find? (fun p => p.1 == kq)).map Prod.snd
        = some v
      rw [List.find?_append, hnone]
      simp [List.find?_cons]
    · rw [if_neg hk]
      show ((r ++ [(k, v)]).find? (fun p => p.1 == kq)).map Prod.snd
        = lookupVal r kq
      rw [List.find?_append]
      have h2 : ([((k, v) : String × NutValue)].find? (fun p => p.1 == kq))
          = none := by
        simp [List.find?_cons, beq_eq_false_iff_ne.mpr (fun he => hk he.symm)]
      rw [h2]
      cases hr : r.find? (fun p => p.1 == kq) <;> simp [lookupVal, hr]

theorem lookupVal_foldl_dictInsert (d : Row) (acc : Row) (k : String) :
    lookupVal (d.foldl (fun a p => dictInsert a p.1 p.2) acc) k
      = ((d.reverse.find? (fun p => p.1 == k)).map Prod.snd).orElse
          (fun _ => lookupVal acc k) := by
  induction d generalizing acc with
  | nil => simp
  | cons p ps ih =>
    rw [List.foldl_cons, ih (dictInsert acc p.1 p.2)]
    rw [List.reverse_cons, List.find?_append, lookupVal_dictInsert]
    cases hf : ps.reverse.find? (fun q => q.1 == k) with
    | some q => simp [hf]
    | none =>
      by_cases hk : k = p.1
      · have hb : (p.1 == k) = true := beq_iff_eq.mpr hk.symm
        simp [hf, hk, List.find?_cons, hb]
      · have hb : (p.1 == k) = false :=
          beq_eq_false_iff_ne.mpr (fun he => hk he.symm)
        simp [hf, hk, List.find?_cons, hb]

theorem find?_key_reverse_of_nodup (d : Row) (k : String)
    (hnodup : (d.map Prod.fst).Nodup) :
    d.reverse.find? (fun p => p.1 == k) = d.find? (fun p => p.1 == k) := by
  induction d with
  | nil => rfl
  | cons p ps ih =>
    rw [List.map_cons] at hnodup
    have hnd := List.nodup_cons.mp hnodup
    rw [List.reverse_cons, List.find?_append]
    cases hp : (p.1 == k) with
    | true =>
      have hpk : p.1 = k := beq_iff_eq.mp hp
      have hnone : ps.reverse.find? (fun q => q.1 == k) = none := by
        rw [List.find?_eq_none]
        intro x hx hxk
        have hmem : x.1 ∈ ps.map Prod.fst :=
          List.mem_map.mpr ⟨x, List.mem_reverse.mp hx, rfl⟩
        have hxk1 : x.1 = k := by simpa using hxk
        rw [hxk1, ← hpk] at hmem
        exact hnd.1 hmem
      rw [hnone, List.find?_cons]
      simp [List.find?_cons, hp]
    | false =>
      rw [ih hnd.2]
      have h2 : ([p].find? (fun q => q.1 == k)) = none := by
        simp [List.find?_cons, hp]
      rw [h2, List.find?_cons]
      simp only [hp]
      cases hfs : ps.find? (fun q => q.1 == k) <;> simp [hfs]

theorem lookupVal_mkBroadcast (tv : NutValue) (d : Row) (k : String)
    (hk : ¬ k = "timestamp") (hnodup : (d.map Prod.fst).Nodup) :
    lookupVal (dictMerge [("timestamp", tv)] d) k = lookupVal d k := by
  unfold dictMerge
  rw [lookupVal_foldl_dictInsert, find?_key_reverse_of_nodup d k hnodup]
  cases hf : d.find? (fun p => p.1 == k) with
  | some q => simp [lookupVal, hf]
  | none =>
    have hb : ("timestamp" == k) = false :=
      beq_eq_false_iff_ne.mpr (fun he => hk he.symm)
    simp [lookupVal, hf, List.find?_cons, hb]

/-- C9: after the first broadcast, a push is skipped exactly when the
status string is unchanged and no watch-list metric present in both
payloads moved by one unit or more; in particular identical consecutive
samples produce no second broadcast. -/
theorem C9_significance_filter (st : CacheState) (last d : Row)
    (nowIso : String)
    (hlast : st.last_broadcast = some last)
    (hd : d ≠ [])
    (hnodup : (d.map Prod.fst).Nodup)
    (hnumd : ∀ m ∈ importantMetrics, isNumericOrAbsent d m = true)
    (hnuml : ∀ m ∈ importantMetrics, isNumericOrAbsent last m = true) :
    ((broadcast_cache_update st nowIso d).1 = none
      ∧ (broadcast_cache_update st nowIso d).2 = st)
    ↔ (lookupVal d "ups_status" = lookupVal last "ups_status"
      ∧ ∀ m ∈ importantMetrics, ∀ qc ql : ℚ,
          lookupVal d m = some (NutValue.num qc) →
          lookupVal last m = some (NutValue.num ql) → |qc - ql| < 1) := by
  have hde : d.isEmpty = false := by
    cases d with
    | nil => exact absurd rfl hd
    | cons a as => rfl
  have hstatus := lookupVal_mkBroadcast (NutValue.str nowIso) d "ups_status"
    (by decide) hnodup
  have hmet : ∀ m ∈ importantMetrics,
      lookupVal (dictMerge [("timestamp", NutValue.str nowIso)] d) m
        = lookupVal d m := by
    intro m hm
    refine lookupVal_mkBroadcast _ d m ?_ hnodup
    have hm4 : m = "ups_load" ∨ m = "battery_charge" ∨ m = "ups_realpower"
        ∨ m = "input_voltage" := by simpa [importantMetrics] using hm
    rcases hm4 with rfl | rfl | rfl | rfl <;> decide
  unfold broadcast_cache_update
  simp only [hde, Bool.false_eq_true, if_false, hlast]
  cases hcond : (!statusChanged (dictMerge [("timestamp", NutValue.str nowIso)] d) last
      && !significantChange (dictMerge [("timestamp", NutValue.str nowIso)] d) last) with
  | true =>
    simp only [hcond, if_true]
    have hparts := Bool.and_eq_true_iff.mp hcond
    have hst : statusChanged (dictMerge [("timestamp", NutValue.str nowIso)] d)
        last = false := by
      have := hparts.1
      rwa [Bool.not_eq_true'] at this
    have hsig : significantChange
        (dictMerge [("timestamp", NutValue.str nowIso)] d) last = false := by
      have := hparts.2
      rwa [Bool.not_eq_true'] at this
    refine iff_of_true (by simp) ⟨?_, ?_⟩
    · unfold statusChanged at hst
      have := of_decide_eq_false hst
      rw [hstatus] at this
      exact not_ne_iff.mp this
    · intro m hm qc ql hqc hql
      unfold significantChange at hsig
      have hall := List.any_eq_false.mp hsig m hm
      rw [hmet m hm, hqc, hql] at hall
      simp only [Option.isSome_some, Bool.and_self, Option.some_bind,
        pyFloatOrZero, Bool.true_and] at hall
      rw [Bool.not_eq_true] at hall
      exact not_le.mp (of_decide_eq_false hall)
  | false =>
    simp only [hcond, Bool.false_eq_true, if_false]
    refine iff_of_false (fun h => Option.noConfusion h.1) ?_
    rintro ⟨hseq, hclose⟩
    rcases Bool.and_eq_false_iff.mp hcond with hst | hsig
    · rw [Bool.not_eq_false'] at hst
      unfold statusChanged at hst
      have := of_decide_eq_true hst
      rw [hstatus] at this
      exact this hseq
    · rw [Bool.not_eq_false'] at hsig
      unfold significantChange at hsig
      obtain ⟨m, hm, hpred⟩ := List.any_eq_true.mp hsig
      rw [hmet m hm] at hpred
      cases hdm : lookupVal d m with
      | none =>
        rw [hdm] at hpred
        simp at hpred
      | some v =>
        cases v with
        | num qc =>
          cases hlm : lookupVal last m with
          | none =>
            rw [hdm, hlm] at hpred
            simp at hpred
          | some w =>
            cases w with
            | num ql =>
              rw [hdm, hlm] at hpred
              simp only [Option.isSome_some, Bool.and_self,
                Option.some_bind, pyFloatOrZero, Bool.true_and] at hpred
              have hge : (1 : ℚ) ≤ |qc - ql| := of_decide_eq_true hpred
              have hlt := hclose m hm qc ql hdm hlm
              linarith
            | str s =>
              have := hnuml m hm
              rw [isNumericOrAbsent, hlm] at this
              cases this
            | time t =>
              have := hnuml m hm
              rw [isNumericOrAbsent, hlm] at this
              cases this
        | str s =>
          have := hnumd m hm
          rw [isNumericOrAbsent, hdm] at this
          cases this
        | time t =>
          have := hnumd m hm
          rw [isNumericOrAbsent, hdm] at this
          cases this

theorem C5_calculate_averages_witness :
    (∃ res, calculate_averages
        [[("timestamp", NutValue.time 0), ("ups_load", NutValue.num 42)]]
        = some res
      ∧ (∀ c, c ∈ buildColumns
            [[("timestamp", NutValue.time 0), ("ups_load", NutValue.num 42)]] →
          colIsNumeric
            [[("timestamp", NutValue.time 0), ("ups_load", NutValue.num 42)]]
            c = true →
          List.lookup c res
            = some (some (NutValue.num (round2 (ratMean (numValues
                [[("timestamp", NutValue.time 0),
                  ("ups_load", NutValue.num 42)]] c))))))
      ∧ (∀ c, c ∈ buildColumns
            [[("timestamp", NutValue.time 0), ("ups_load", NutValue.num 42)]] →
          colIsNumeric
            [[("timestamp", NutValue.time 0), ("ups_load", NutValue.num 42)]]
            c = false →
          c ≠ "timestamp" →
          List.lookup c res = some (lookupVal
            (([[("timestamp", NutValue.time 0),
                ("ups_load", NutValue.num 42)]].getLast?).getD []) c))) :=
  (C5_calculate_averages
    [[("timestamp", NutValue.time 0), ("ups_load", NutValue.num 42)]]
    (by decide)).1

theorem C9_significance_filter_witness :
    ((broadcast_cache_update c9State "t2" c9Sample).1 = none
      ∧ (broadcast_cache_update c9State "t2" c9Sample).2 = c9State)
    ↔ (lookupVal c9Sample "ups_status" = lookupVal c9Last "ups_status"
      ∧ ∀ m ∈ importantMetrics, ∀ qc ql : ℚ,
          lookupVal c9Sample m = some (NutValue.num qc) →
          lookupVal c9Last m = some (NutValue.num ql) → |qc - ql| < 1) :=
  C9_significance_filter c9State c9Last c9Sample "t2" rfl (by decide)
    (by decide) (by decide) (by decide)

/-- C10: when the configured UPS name or host is missing, `get_ups_data`
returns the `ERROR` placeholder sample (no error raised), whose fields are
`ups_status = "ERROR"` and zeroed numerics, and that sample enters the
buffer and is averaged like a normal sample. -/
theorem C10_missing_config_placeholder (cfg : UPSConfigState)
    (env : ReaderEnv)
    (h : (pyFalsyStr cfg.name || pyFalsyStr cfg.host) = true) :
    get_ups_data cfg env = Except.ok errorPlaceholder
    ∧ lookupVal errorPlaceholder "ups_status" = some (NutValue.str "ERROR")
    ∧ lookupVal errorPlaceholder "battery_charge" = some (NutValue.num 0)
    ∧ lookupVal errorPlaceholder "battery_runtime" = some (NutValue.num 0)
    ∧ lookupVal errorPlaceholder "input_voltage" = some (NutValue.num 0)
    ∧ lookupVal errorPlaceholder "output_voltage" = some (NutValue.num 0)
    ∧ (∀ iso : String, calculate_averages (dfRows
        (cache_add (mkCache CACHE_SECONDS) 0 iso errorPlaceholder))
        = some [("battery_charge", some (NutValue.num 0)),
                ("battery_runtime", some (NutValue.num 0)),
                ("input_voltage", some (NutValue.num 0)),
                ("output_voltage", some (NutValue.num 0)),
                ("ups_status", some (NutValue.str "ERROR"))]) := by
  refine ⟨?_, rfl, rfl, rfl, rfl, rfl, ?_⟩
  · unfold get_ups_data
    rw [if_pos h]
  · intro iso
    have hdf : dfRows (cache_add (mkCache CACHE_SECONDS) 0 iso
        errorPlaceholder)
        = [[("timestamp", NutValue.time 0),
            ("ups_status", NutValue.str "ERROR"),
            ("battery_charge", NutValue.num 0),
            ("battery_runtime", NutValue.num 0),
            ("input_voltage", NutValue.num 0),
            ("output_voltage", NutValue.num 0)]] := rfl
    rw [hdf]
    have hv : round2 (ratMean [(0 : ℚ)]) = 0 := by
      have h1 : ratMean [(0 : ℚ)] = 0 := by norm_num [ratMean]
      rw [h1]
      norm_num [round2, roundHalfEven]
    have hstruct : calculate_averages
        [[("timestamp", NutValue.time 0),
          ("ups_status", NutValue.str "ERROR"),
          ("battery_charge", NutValue.num 0),
          ("battery_runtime", NutValue.num 0),
          ("input_voltage", NutValue.num 0),
          ("output_voltage", NutValue.num 0)]]
        = some [("battery_charge",
                  some (NutValue.num (round2 (ratMean [(0 : ℚ)])))),
                ("battery_runtime",
                  some (NutValue.num (round2 (ratMean [(0 : ℚ)])))),
                ("input_voltage",
                  some (NutValue.num (round2 (ratMean [(0 : ℚ)])))),
                ("output_voltage",
                  some (NutValue.num (round2 (ratMean [(0 : ℚ)])))),
                ("ups_status", some (NutValue.str "ERROR"))] := rfl
    rw [hstruct, hv]

theorem C10_missing_config_placeholder_witness :
    get_ups_data { command := none, name := none, host := some "h" }
      { returncode := 0, stdoutLines := [], fallbackNominal := 1000 }
      = Except.ok errorPlaceholder
    ∧ lookupVal errorPlaceholder "ups_status"
      = some (NutValue.str "ERROR") := by
  have h := C10_missing_config_placeholder
    { command := none, name := none, host := some "h" }
    { returncode := 0, stdoutLines := [], fallbackNominal := 1000 }
    (by decide)
  exact ⟨h.1, h.2.1⟩

end Nutify
